import Mathlib

/-!
Verification development for the `basic_agent` filesystem-administration agent
(`basic_agent/mcp_file.py` and `basic_agent/agent.py`).

The embedding is shallow:

* A filesystem path is a list of name components.  `Path(p)` values are modelled
  by `RawPath` (absolute flag plus components, as returned by `Path(p).parts`
  without the anchor; pathlib already removes single-dot components at parsing).
  `Path.resolve()` is modelled lexically by `resolveParts` (no symlinks in the
  model), and `str()` of an absolute path by `renderAbs` (POSIX rendering).
* Python strings are Lean `String`s; `str.lower`, `str.startswith` and string
  comparison are re-implemented over the character lists (`pyLower`,
  `pyStartsWith`, `pyStrLe`) because they must compute inside the kernel and
  because Python compares strings by code points.
* The directory tree under the administered root is an inductive `FSNode`;
  entries on which `stat` raises `PermissionError` carry a `statDenied` flag and
  directories whose listing raises `PermissionError` carry a `listDenied` flag.
* Fallible Python code returns `Except PyErr`.
-/

namespace BasicAgent

/-! ## Path model -/

/-- The components of `Path(p)`: `isAbs` is `Path(p).is_absolute()`, `parts`
are `Path(p).parts` without the anchor.  pathlib removes `"."` components while
parsing, but nothing here relies on that. -/
structure RawPath where
  isAbs : Bool
  parts : List String

/-- Lexical model of `Path.resolve()` on an absolute path's components:
`"."` is dropped, `".."` removes the previous component (staying at the root
when there is none), anything else is appended.  Symlinks are not modelled. -/
def resolveParts (ps : List String) : List String :=
  ps.foldl
    (fun acc c =>
      if c = "." then acc
      else if c = ".." then acc.dropLast
      else acc ++ [c])
    []

/-- Python `sep.join(l)`. -/
def pyJoin (sep : String) : List String → String
  | [] => ""
  | [a] => a
  | a :: b :: rest => a ++ sep ++ pyJoin sep (b :: rest)

/-- `str()` of an absolute path, POSIX flavour. -/
def renderAbs (ps : List String) : String :=
  "/" ++ pyJoin "/" ps

/-- ASCII model of `str.lower` on one character. -/
def pyCharLower (c : Char) : Char :=
  if 'A' ≤ c ∧ c ≤ 'Z' then Char.ofNat (c.toNat + 32) else c

/-- Model of `str.lower` (ASCII; the administered root's name and the entry
names appearing in the claims are ASCII). -/
def pyLower (s : String) : String := ⟨s.data.map pyCharLower⟩

/-- Code-point lexicographic comparison on character lists, as Python compares
strings. -/
def chLe : List Char → List Char → Bool
  | [], _ => true
  | _ :: _, [] => false
  | a :: as, b :: bs =>
      if a = b then chLe as bs else decide (a.toNat < b.toNat)

/-- Python `a <= b` on strings. -/
def pyStrLe (a b : String) : Bool := chLe a.data b.data

/-- Python `s.startswith(p)`. -/
def pyStartsWith (s p : String) : Bool := p.data.isPrefixOf s.data

/-- `BASE_NAME = BASE_DIR.name.lower()`: the lower-cased last component of the
administered root (`""` for an empty component list, as `Path.name` of a bare
anchor is `""`). -/
def baseNameOf (base : List String) : String :=
  pyLower ((base.getLast?).getD "")

/-- Model of `_coerce_into_base` (mcp_file.py:48-66).  `path` is the already
resolved absolute candidate; if the base folder's name occurs (case
insensitively) among its components, the components after the last such
occurrence are re-joined under the base and the result is kept only when
`candidate.relative_to(BASE_DIR)` succeeds, i.e. when the base's components are
a prefix of the candidate's. -/
def coerce_into_base (base : List String) (path : List String) : Option (List String) :=
  let lowered := path.map pyLower
  if baseNameOf base ∉ lowered then none
  else
    let lastIdx := path.length - 1 - (lowered.reverse.indexOf (baseNameOf base))
    let suffixParts := path.drop (lastIdx + 1)
    let candidate := resolveParts (base ++ suffixParts)
    if base.isPrefixOf candidate then some candidate else none

/-- Model of `_relative_display` (mcp_file.py:69-78): the path relative to the
base when `relative_to` succeeds (with `"."` for the base itself), otherwise
the absolute rendering. -/
def relative_display (base : List String) (p : List String) : String :=
  if base.isPrefixOf p then
    let rel := p.drop base.length
    let relStr := if rel.isEmpty then "." else pyJoin "/" rel
    if relStr = "." then "." else relStr
  else renderAbs p

/-- Python exception classes raised by the tools. -/
inductive PyErr where
  | valueError (msg : String)
  | fileNotFound (msg : String)
  | notADirectory (msg : String)
  | permissionError

/-- The `try: path.relative_to(BASE_DIR) / except: fallback` body of
`_resolve_safe` (mcp_file.py:160-168): accept a contained path, otherwise try
the coercion fallback and fail with `ValueError` when it also rejects. -/
def containOrCoerce (base path : List String) : Except PyErr (List String) :=
  if base.isPrefixOf path then .ok path
  else
    match coerce_into_base base path with
    | some fallback => .ok fallback
    | none =>
        .error (.valueError
          ("The path " ++ renderAbs path ++ " is outside the managed directory "
            ++ renderAbs base))

/-- Model of `_resolve_safe` (mcp_file.py:154-169): join a relative input under
the base, canonicalize, then check containment with the coercion fallback. -/
def resolve_safe (base : List String) (raw : RawPath) : Except PyErr (List String) :=
  containOrCoerce base
    (if raw.isAbs then resolveParts raw.parts else resolveParts (base ++ raw.parts))

/-! ### Soundness lemmas for the path sandbox -/

theorem coerce_into_base_prefix {base path c : List String}
    (h : coerce_into_base base path = some c) : base <+: c := by
  unfold coerce_into_base at h
  by_cases hmem : baseNameOf base ∉ path.map pyLower
  · simp [hmem] at h
  · simp only [hmem, if_false] at h
    split at h
    · next hpre =>
        cases h
        exact List.isPrefixOf_iff_prefix.mp hpre
    · cases h

theorem containOrCoerce_ok_prefix {base path p : List String}
    (h : containOrCoerce base path = .ok p) : base <+: p := by
  unfold containOrCoerce at h
  split at h
  · next hpre =>
      cases h
      exact List.isPrefixOf_iff_prefix.mp hpre
  · revert h
    split
    · next c hc =>
        intro h
        cases h
        exact coerce_into_base_prefix hc
    · intro h
      cases h

theorem resolve_safe_ok_prefix {base : List String} {raw : RawPath} {p : List String}
    (h : resolve_safe base raw = .ok p) : base <+: p :=
  containOrCoerce_ok_prefix h

theorem containOrCoerce_error_msg {base path : List String} {e : PyErr}
    (h : containOrCoerce base path = .error e) :
    e = .valueError
      ("The path " ++ renderAbs path ++ " is outside the managed directory "
        ++ renderAbs base) := by
  unfold containOrCoerce at h
  split at h
  · cases h
  · revert h
    split
    · intro h; cases h
    · intro h
      cases h
      rfl

theorem resolve_safe_error_msg {base : List String} {raw : RawPath} {e : PyErr}
    (h : resolve_safe base raw = .error e) :
    ∃ p, e = .valueError
      ("The path " ++ renderAbs p ++ " is outside the managed directory "
        ++ renderAbs base) :=
  ⟨_, containOrCoerce_error_msg h⟩

/-- A component that canonicalization leaves in place. -/
def NormalComp (c : String) : Prop := c ≠ "." ∧ c ≠ ".."

instance (c : String) : Decidable (NormalComp c) :=
  inferInstanceAs (Decidable (c ≠ "." ∧ c ≠ ".."))

theorem resolveParts_go_normal (ps : List String) (acc : List String)
    (h : ∀ c ∈ ps, NormalComp c) :
    ps.foldl
      (fun acc c =>
        if c = "." then acc
        else if c = ".." then acc.dropLast
        else acc ++ [c])
      acc = acc ++ ps := by
  induction ps generalizing acc with
  | nil => simp
  | cons c rest ih =>
      have hc := h c (by simp)
      simp only [List.foldl_cons, if_neg hc.1, if_neg hc.2]
      rw [ih _ (fun d hd => h d (by simp [hd]))]
      simp

theorem resolveParts_normal {ps : List String} (h : ∀ c ∈ ps, NormalComp c) :
    resolveParts ps = ps := by
  simpa using resolveParts_go_normal ps [] h

/-! ### Display round-trip lemmas -/

theorem pyJoin_ne_dot {cs : List String} (hne : cs ≠ [])
    (h : ∀ c ∈ cs, c ≠ ".") : pyJoin "/" cs ≠ "." := by
  match cs, hne with
  | [a], _ =>
      simpa [pyJoin] using h a (by simp)
  | a :: b :: rest, _ =>
      intro heq
      have hdata : (a ++ "/" ++ pyJoin "/" (b :: rest)).data = ['.'] := by
        rw [show pyJoin "/" (a :: b :: rest) = a ++ "/" ++ pyJoin "/" (b :: rest) from rfl]
          at heq
        rw [heq]
      have hslash : ("/" : String).data = ['/'] := rfl
      rw [String.data_append, String.data_append, hslash] at hdata
      have hlen := congrArg List.length hdata
      simp only [List.length_append, List.length_cons, List.length_nil] at hlen
      have ha : a.data = [] := List.length_eq_zero.mp (by omega)
      have hr : (pyJoin "/" (b :: rest)).data = [] := List.length_eq_zero.mp (by omega)
      rw [ha, hr] at hdata
      simp at hdata

theorem isPrefixOf_self (l : List String) : l.isPrefixOf l = true :=
  List.isPrefixOf_iff_prefix.mpr List.prefix_rfl

theorem isPrefixOf_append (l t : List String) : l.isPrefixOf (l ++ t) = true :=
  List.isPrefixOf_iff_prefix.mpr (List.prefix_append l t)

/-- `_resolve_safe` on the absolute rendering of the base itself returns the
base unchanged. -/
theorem resolve_safe_base {base : List String} (hb : ∀ c ∈ base, NormalComp c) :
    resolve_safe base ⟨true, base⟩ = .ok base := by
  unfold resolve_safe containOrCoerce
  simp [resolveParts_normal hb, isPrefixOf_self]

/-- `_relative_display` of the base itself is `"."`. -/
theorem relative_display_base (base : List String) :
    relative_display base base = "." := by
  unfold relative_display
  simp [isPrefixOf_self]

/-- `_resolve_safe` of `root/a/b` (normal components) returns `root ++ [a, b]`
unchanged. -/
theorem resolve_safe_under_base {base cs : List String}
    (hb : ∀ c ∈ base, NormalComp c) (hcs : ∀ c ∈ cs, NormalComp c) :
    resolve_safe base ⟨true, base ++ cs⟩ = .ok (base ++ cs) := by
  unfold resolve_safe containOrCoerce
  have hall : ∀ c ∈ base ++ cs, NormalComp c := by
    intro c hc
    rcases List.mem_append.mp hc with h | h
    · exact hb c h
    · exact hcs c h
  simp [resolveParts_normal hall, isPrefixOf_append]

/-- `_relative_display` of `root ++ cs` is `"/".join(cs)` for a non-empty list
of normal components. -/
theorem relative_display_under_base {base cs : List String} (hne : cs ≠ [])
    (hcs : ∀ c ∈ cs, NormalComp c) :
    relative_display base (base ++ cs) = pyJoin "/" cs := by
  unfold relative_display
  have hdot : pyJoin "/" cs ≠ "." := pyJoin_ne_dot hne (fun c hc => (hcs c hc).1)
  simp [isPrefixOf_append, List.drop_left, hne, hdot]

/-! ## Structured values and the response formatter -/

/-- Python values carried in tool results: strings, ints, floats (exact
rationals in the model), booleans, `None`, lists (also standing for the tuples
passed as extension counts) and string-keyed dicts. -/
inductive PyVal where
  | s (v : String)
  | i (v : Int)
  | rat (v : ℚ)
  | b (v : Bool)
  | pyNone
  | list (vs : List PyVal)
  | dict (kvs : List (String × PyVal))

/-- Decimal rendering of the rationals the tools produce (`round(x, 2)` values
have denominators dividing 100); other denominators fall back to a fraction
rendering, which no tool value reaches. -/
def ratRepr (q : ℚ) : String :=
  let sign := if q.num < 0 then "-" else ""
  let n := q.num.natAbs
  if q.den = 1 then sign ++ toString n ++ ".0"
  else if 100 % q.den = 0 then
    let n100 := n * (100 / q.den)
    let ip := n100 / 100
    let fr := n100 % 100
    let frs :=
      if fr % 10 = 0 then toString (fr / 10)
      else if fr < 10 then "0" ++ toString fr
      else toString fr
    sign ++ toString ip ++ "." ++ frs
  else sign ++ toString n ++ "/" ++ toString q.den

/-- Python `str()` on scalar values (the containers are always destructured by
`_format_value` before `str()` is applied; rendering them here is never reached
by the tools). -/
def pyStr : PyVal → String
  | .s v => v
  | .i v => toString v
  | .rat v => ratRepr v
  | .b true => "True"
  | .b false => "False"
  | .pyNone => "None"
  | .list _ => "[...]"
  | .dict _ => "{...}"

/-- Python `dict.get(k, default)` on a `PyVal`; a non-dict receiver would raise
`AttributeError` in Python but is never reached by the tools. -/
def pyGet (f : PyVal) (k : String) (d : PyVal) : PyVal :=
  match f with
  | .dict kvs =>
      (kvs.lookup k).getD d
  | _ => d

/-- First-match lookup in a string-keyed association list (Python dict lookup;
the tools never build duplicate keys). -/
def lookupVal (kvs : List (String × PyVal)) (k : String) : Option PyVal :=
  match kvs with
  | [] => Option.none
  | (k', v) :: rest => if k' = k then some v else lookupVal rest k

mutual
/-- Model of `_format_value` (mcp_file.py:81-93): dicts become `k=v` pairs,
lists (and tuples/sets) comma-joined elements, recursively, with `"(none)"`
for empty collections; scalars go through `str()`. -/
def formatValue : PyVal → String
  | .dict kvs => if kvs.isEmpty then "(none)" else pyJoin ", " (formatKVs kvs)
  | .list vs => if vs.isEmpty then "(none)" else pyJoin ", " (formatVals vs)
  | v => pyStr v

def formatKVs : List (String × PyVal) → List String
  | [] => []
  | (k, v) :: rest => (k ++ "=" ++ formatValue v) :: formatKVs rest

def formatVals : List PyVal → List String
  | [] => []
  | v :: rest => formatValue v :: formatVals rest
end

/-- The dual-channel tool result: the joined text lines plus the structured
payload (`ToolResult(content=[TextContent(...)], structured_content=...)`). -/
structure ToolResultE where
  text : String
  structured : List (String × PyVal)

/-- Keys skipped by the generic rendering branch of `function_make_response`. -/
def genericSkipKeys : List String :=
  ["path", "summary", "entries", "content", "tree", "files", "counts"]

/-- `isinstance(data[k], list)`-guarded lookup: the list payload under key `k`
when present and a list, else `none`. -/
def listAt (data : List (String × PyVal)) (k : String) : Option (List PyVal) :=
  match lookupVal data k with
  | some (.list vs) => some vs
  | _ => Option.none

/-- `isinstance(data[k], str)`-guarded lookup. -/
def strAt (data : List (String × PyVal)) (k : String) : Option String :=
  match lookupVal data k with
  | some (.s v) => some v
  | _ => Option.none

/-- The entries-branch lines of `function_make_response`. -/
def entriesLines (entries : List PyVal) : List String :=
  if entries.isEmpty then ["\nThe directory is empty."]
  else ["\nHere are the items found:"] ++ entries.map (fun e => "- " ++ pyStr e)

/-- The files-branch line for one large-file record. -/
def fileLine (f : PyVal) : String :=
  "- " ++ pyStr (pyGet f "path" (.s "unknown")) ++ " ("
    ++ pyStr (pyGet f "size_mb" (.i 0)) ++ " MB)"

/-- The counts-branch line for one `(extension, count)` tuple (a non-pair
element would fail tuple unpacking in Python; never produced by the tools). -/
def countLine (p : PyVal) : String :=
  match p with
  | .list [e, c] => "- " ++ pyStr e ++ ": " ++ pyStr c
  | _ => "- ?"

/-- The generic fallback lines of `function_make_response`. -/
def genericLines (data : List (String × PyVal)) : List String :=
  data.filterMap (fun kv =>
    if kv.1 ∈ genericSkipKeys then Option.none
    else some ("- " ++ kv.1 ++ ": " ++ formatValue kv.2))

/-- Model of `function_make_response` (mcp_file.py:96-151): builds the
structured payload (summary plus, when data is non-empty, the full data
mapping), then renders the text channel through the kind-directed branches in
their fixed priority order. -/
def function_make_response (summary : String) (data : List (String × PyVal)) :
    ToolResultE :=
  let structured :=
    ("summary", PyVal.s summary) :: (if data.isEmpty then [] else [("data", PyVal.dict data)])
  let textLines :=
    match listAt data "entries" with
    | some entries => [summary] ++ entriesLines entries
    | Option.none =>
      match strAt data "content" with
      | some c => [summary, "\nFile Content:", "```", c, "```"]
      | Option.none =>
        match listAt data "tree" with
        | some t => [summary, "\nDirectory Structure:", "```"] ++ t.map pyStr ++ ["```"]
        | Option.none =>
          match listAt data "files" with
          | some fs => [summary, "\nLarge Files Found:"] ++ fs.map fileLine
          | Option.none =>
            match listAt data "counts" with
            | some cs => [summary, "\nFile Counts by Extension:"] ++ cs.map countLine
            | Option.none => [summary] ++ genericLines data
  ⟨pyJoin "\n" textLines, structured⟩

/-! ### Structured-channel lemmas -/

theorem function_make_response_structured (summary : String)
    (data : List (String × PyVal)) :
    (function_make_response summary data).structured =
      ("summary", PyVal.s summary) ::
        (if data.isEmpty then [] else [("data", PyVal.dict data)]) := rfl

theorem function_make_response_summary (summary : String)
    (data : List (String × PyVal)) :
    lookupVal (function_make_response summary data).structured "summary" =
      some (.s summary) := by
  rw [function_make_response_structured]
  rfl

theorem function_make_response_data_field (summary : String)
    {data : List (String × PyVal)} {k : String} {v : PyVal}
    (h : lookupVal data k = some v) :
    ∃ inner, lookupVal (function_make_response summary data).structured "data" =
        some (.dict inner) ∧ lookupVal inner k = some v := by
  refine ⟨data, ?_, h⟩
  rw [function_make_response_structured]
  match data, h with
  | (k', v') :: rest, _ => rfl

/-! ## Filesystem model -/

/-- A node of the administered tree.  `statDenied` makes `stat`-based calls
(`exists`, `is_file`, `is_dir`, `stat`) raise `PermissionError` for the node;
`listDenied` makes listing the directory (`iterdir`, and the recursive
descent of `rglob`) raise, while `rglob` itself suppresses the error and
simply yields nothing beneath such a directory (pathlib behaviour).  A file's
`utf8` is its decoded text, or `none` when `read_text` raises
`UnicodeDecodeError`. -/
inductive FSNode where
  | file (size : Nat) (utf8 : Option String) (statDenied : Bool)
  | dir (children : List (String × FSNode)) (listDenied : Bool) (statDenied : Bool)

/-- Navigate from a node along a relative component list (directory traversal
permission is not modelled; only listing and stat permissions are). -/
def lookupNode : FSNode → List String → Option FSNode
  | n, [] => some n
  | .dir children _ _, c :: rest =>
      match children.find? (fun nc => nc.1 = c) with
      | some nc => lookupNode nc.2 rest
      | Option.none => Option.none
  | .file _ _ _, _ :: _ => Option.none

def statDeniedOf : FSNode → Bool
  | .file _ _ sd => sd
  | .dir _ _ sd => sd

def isDirRaw : FSNode → Bool
  | .dir _ _ _ => true
  | .file _ _ _ => false

/-- `path.is_dir()`: `False` for a missing path (pathlib ignores `ENOENT`),
`PermissionError` when `stat` is denied. -/
def isDirE : Option FSNode → Except PyErr Bool
  | Option.none => .ok false
  | some n => if statDeniedOf n then .error .permissionError else .ok (isDirRaw n)

/-- Stable insertion of `a`: placed before the first element it compares
`le` to, so the sort below keeps the original order of equal keys, as
Python's stable `sorted`. -/
def insertLe {α : Type} (le : α → α → Bool) (a : α) : List α → List α
  | [] => [a]
  | b :: l => if le a b then a :: b :: l else b :: insertLe le a l

/-- Stable insertion sort with a boolean `le` (model of Python `sorted` /
`list.sort`). -/
def sortLe {α : Type} (le : α → α → Bool) : List α → List α
  | [] => []
  | a :: l => insertLe le a (sortLe le l)

mutual
/-- Recursive scan: model of `base.rglob("*")`.  For each directory reachable
without a denied listing, its entries are yielded in scan order before the
contents of its subdirectories (the directory itself is yielded by its
parent's scan); a `listDenied` directory contributes nothing below itself. -/
def rglobNode (pfx : List String) : FSNode → List (List String × FSNode)
  | .file _ _ _ => []
  | .dir children ld _ =>
      if ld then []
      else children.map (fun nc => (pfx ++ [nc.1], nc.2)) ++ rglobSubdirs pfx children

def rglobSubdirs (pfx : List String) : List (String × FSNode) → List (List String × FSNode)
  | [] => []
  | (n, c) :: rest => rglobNode (pfx ++ [n]) c ++ rglobSubdirs pfx rest
end

/-! ## The eight operations -/

/-- `_resolve_safe` followed by locating the target node under the base
(`root` is the filesystem tree rooted at the base directory). -/
def resolveLookup (base : List String) (root : FSNode) (raw : RawPath) :
    Except PyErr (List String × Option FSNode) :=
  match resolve_safe base raw with
  | .error e => .error e
  | .ok p => .ok (p, lookupNode root (p.drop base.length))

/-- The `if not base.is_dir(): raise NotADirectoryError(...)` guard shared by
the directory operations (`list_directory`'s `not exists() or not is_dir()`
classifies targets identically): an accessible directory passes, a stat-denied
target raises `PermissionError`, anything else raises `NotADirectoryError`. -/
def requireDir (path : List String) (t : Option FSNode) :
    Except PyErr (List (String × FSNode) × Bool) :=
  match t with
  | some (.dir children ld false) => .ok (children, ld)
  | some (.dir _ _ true) => .error .permissionError
  | some (.file _ _ true) => .error .permissionError
  | some (.file _ _ false) => .error (.notADirectory ("Not a directory: " ++ renderAbs path))
  | Option.none => .error (.notADirectory ("Not a directory: " ++ renderAbs path))

/-- Python `len(s.splitlines())` for strings whose line breaks are `"\n"`
(Python also splits on `\r` and other terminators; the tools' claims only
involve newline-terminated text). -/
def splitlinesCount (s : String) : Nat :=
  if s.data.isEmpty then 0
  else s.data.count '\n' + (if s.data.getLast? = some '\n' then 0 else 1)

/-- Model of `get_file_content` (mcp_file.py:172-196). -/
def get_file_content (base : List String) (root : FSNode) (file_path : RawPath) :
    Except PyErr ToolResultE := do
  let (path, t) ← resolveLookup base root file_path
  -- `if not path.is_file(): raise FileNotFoundError(...)`
  match t with
  | some (.file size utf8 false) =>
      let rel := relative_display base path
      match utf8 with
      | some content =>
          .ok (function_make_response
            ("Successfully read " ++ toString (splitlinesCount content)
              ++ " line(s) from '" ++ rel ++ "'.")
            [("path", .s rel), ("size_bytes", .i size), ("is_text", .b true),
             ("content", .s content)])
      | Option.none =>
          .ok (function_make_response
            ("The file '" ++ rel ++ "' is binary or not UTF-8 decodable.")
            [("path", .s rel), ("size_bytes", .i size), ("is_text", .b false),
             ("content", .pyNone)])
  | some (.file _ _ true) => .error .permissionError
  | some (.dir _ _ true) => .error .permissionError
  | some (.dir _ _ false) =>
      .error (.fileNotFound ("No file found at: " ++ renderAbs path))
  | Option.none =>
      .error (.fileNotFound ("No file found at: " ++ renderAbs path))

/-- Model of `list_directory` (mcp_file.py:199-224): entry names suffixed with
`"/"` for directories, entries whose `is_dir()` raises `PermissionError`
skipped, sorted; a directory whose listing is denied raises at `iterdir()`. -/
def list_directory (base : List String) (root : FSNode) (dir_path : RawPath) :
    Except PyErr ToolResultE := do
  let (path, t) ← resolveLookup base root dir_path
  let (children, ld) ← requireDir path t
  if ld then .error .permissionError
  else
    let entries := sortLe pyStrLe (children.filterMap (fun nc =>
      if statDeniedOf nc.2 then Option.none
      else some (nc.1 ++ (if isDirRaw nc.2 then "/" else ""))))
    let rel := relative_display base path
    let count := entries.length
    let summary :=
      if entries.isEmpty then "Directory '" ++ rel ++ "' is empty."
      else "Directory '" ++ rel ++ "' contains " ++ toString count ++ " item(s)."
    .ok (function_make_response summary
      [("path", .s rel), ("count", .i count), ("entries", .list (entries.map .s))])

/-- Model of `get_file_info` (mcp_file.py:227-248).  The `modified`/`created`
timestamp fields of the real tool are not modelled (no claim mentions them);
`st_size` of a directory is modelled as 0. -/
def get_file_info (base : List String) (root : FSNode) (file_path : RawPath) :
    Except PyErr ToolResultE := do
  let (path, t) ← resolveLookup base root file_path
  -- `if not path.exists(): raise FileNotFoundError(...)`
  match t with
  | Option.none =>
      .error (.fileNotFound ("Path does not exist: " ++ renderAbs path))
  | some n =>
      if statDeniedOf n then .error .permissionError
      else
        let rel := relative_display base path
        let kind := if isDirRaw n then "directory" else "file"
        let size : Nat := match n with | .file sz _ _ => sz | .dir _ _ _ => 0
        .ok (function_make_response ("Metadata retrieved for '" ++ rel ++ "'.")
          [("path", .s rel), ("type", .s kind), ("size_bytes", .i size),
           ("absolute_path", .s (renderAbs path))])

/-- Shell-glob matcher over character lists: `*` matches any sequence
(including separators, as Python `fnmatch` does), `?` any one character,
otherwise literal comparison.  `[...]` character classes are not modelled (no
pattern in this development uses them). -/
def fnmatchChars : List Char → List Char → Bool
  | [], [] => true
  | '*' :: ps, s =>
      fnmatchChars ps s ||
        (match s with
         | [] => false
         | _ :: s2 => fnmatchChars ('*' :: ps) s2)
  | '?' :: ps, _ :: s => fnmatchChars ps s
  | p :: ps, c :: s => p = c && fnmatchChars ps s
  | _, _ => false
termination_by p s => (p.length, s.length)

/-- Python `fnmatch.fnmatch(name, pat)` (POSIX `normcase` is the identity). -/
def fnmatchB (name pat : String) : Bool := fnmatchChars pat.data name.data

/-- The result-collecting loop of `search_files`: the `relative_to` step
always succeeds in the model (no symlinks); a matching item whose `is_dir()`
raises propagates the error (the source loop does not guard it). -/
def searchLoop (pat : String) : List (List String × FSNode) → Except PyErr (List String)
  | [] => .ok []
  | (relParts, node) :: rest => do
      let relStr := pyJoin "/" relParts
      if fnmatchB relStr pat then
        match isDirE (some node) with
        | .error e => .error e
        | .ok isd => do
            let more ← searchLoop pat rest
            .ok ((relStr ++ (if isd then "/" else "")) :: more)
      else searchLoop pat rest

/-- Model of `search_files` (mcp_file.py:251-283). -/
def search_files (base : List String) (root : FSNode) (pattern : String)
    (dir_path : RawPath) : Except PyErr ToolResultE := do
  let (path, t) ← resolveLookup base root dir_path
  let (children, ld) ← requireDir path t
  let items := rglobNode (path.drop base.length) (.dir children ld false)
  let results ← searchLoop pattern items
  let sortedResults := sortLe pyStrLe results
  let relBase := relative_display base path
  let summary :=
    if sortedResults.isEmpty then
      "No matches for '" ++ pattern ++ "' inside '" ++ relBase ++ "'."
    else
      "Found " ++ toString sortedResults.length ++ " match(es) for '" ++ pattern
        ++ "' inside '" ++ relBase ++ "'."
  .ok (function_make_response summary
    [("base_path", .s relBase), ("pattern", .s pattern),
     ("matches", .list (sortedResults.map .s))])

/-- The per-entry loop of `_tree` (mcp_file.py:303-313), abstracted over the
recursive descent: each entry contributes its connector line (last entry gets
the hook connector), `entry.is_dir()` on a stat-denied entry raises — the
source loop does not catch it — and directories are descended into with the
extended line prefix. -/
def treeChildrenWith (recurse : FSNode → String → Except PyErr (List String))
    (pfx : String) : List (String × FSNode) → Except PyErr (List String)
  | [] => .ok []
  | (n, c) :: rest =>
      let isLast := rest.isEmpty
      let connector := if isLast then "`-- " else "|-- "
      match isDirE (some c) with
      | .error e => .error e
      | .ok isd =>
          let line := pfx ++ connector ++ n ++ (if isd then "/" else "")
          match (if isd then recurse c (pfx ++ (if isLast then "    " else "|   "))
                 else .ok []) with
          | .error e => .error e
          | .ok sub =>
              match treeChildrenWith recurse pfx rest with
              | .error e => .error e
              | .ok more => .ok (line :: (sub ++ more))

/-- The recursive `_tree` helper of `get_directory_tree` (mcp_file.py:292-314),
with `remaining = max_depth - depth` made explicit.  Listing a denied
directory raises at `iterdir()` — nothing in the source catches it.  Entries
are sorted by lower-cased name, hidden entries (leading `"."`) skipped.  The
non-directory case models the `NotADirectoryError` that `iterdir()` would
raise; it is unreachable because recursion only enters entries whose
`is_dir()` returned true. -/
def treeLines : Nat → FSNode → String → Except PyErr (List String)
  | 0, _, _ => .ok []
  | r + 1, current, pfx =>
    match current with
    | .file _ _ _ => .error (.notADirectory "Not a directory")
    | .dir children ld _ =>
        if ld then .error .permissionError
        else
          let sortedChildren :=
            sortLe (fun a b => pyStrLe (pyLower a.1) (pyLower b.1)) children
          let entries := sortedChildren.filter (fun nc => !(pyStartsWith nc.1 "."))
          treeChildrenWith (fun c p => treeLines r c p) pfx entries

/-- Model of `get_directory_tree` (mcp_file.py:286-324). -/
def get_directory_tree (base : List String) (root : FSNode) (dir_path : RawPath)
    (max_depth : Nat) : Except PyErr ToolResultE := do
  let (path, t) ← resolveLookup base root dir_path
  let (children, ld) ← requireDir path t
  let rel := relative_display base path
  let lines ← treeLines max_depth (.dir children ld false) ""
  let tree_lines := (rel ++ "/") :: lines
  .ok (function_make_response
    ("Generated tree for '" ++ rel ++ "' up to depth " ++ toString max_depth ++ ".")
    [("path", .s rel), ("max_depth", .i max_depth),
     ("tree", .list (tree_lines.map .s))])

/-- One `rglob` item of the disk-usage loop: skip it entirely when `stat`
raises (`try/except` in the source), else count it as file or directory. -/
def duStep (acc : Nat × Nat × Nat) (it : FSNode) : Nat × Nat × Nat :=
  match it with
  | .file size _ sd =>
      if sd then acc else (acc.1 + size, acc.2.1 + 1, acc.2.2)
  | .dir _ _ sd =>
      if sd then acc else (acc.1, acc.2.1, acc.2.2 + 1)

/-- Round-half-even on exact rationals (model of Python's `round`). -/
def roundHalfEven (q : ℚ) : Int :=
  let f := ⌊q⌋
  let r := q - f
  if r < 1 / 2 then f
  else if 1 / 2 < r then f + 1
  else if f % 2 = 0 then f else f + 1

/-- `round(q, 2)`. -/
def round2 (q : ℚ) : ℚ := (roundHalfEven (q * 100) : ℚ) / 100

/-- Model of `get_disk_usage` (mcp_file.py:327-360). -/
def get_disk_usage (base : List String) (root : FSNode) (dir_path : RawPath) :
    Except PyErr ToolResultE := do
  let (path, t) ← resolveLookup base root dir_path
  let (children, ld) ← requireDir path t
  let items := rglobNode (path.drop base.length) (.dir children ld false)
  let stats := (items.map (fun it => it.2)).foldl duStep (0, 0, 0)
  let totalSize := stats.1
  let sizeMb := round2 ((totalSize : ℚ) / 1024 / 1024)
  let rel := relative_display base path
  .ok (function_make_response ("Calculated disk usage for '" ++ rel ++ "'.")
    [("path", .s rel), ("size_bytes", .i totalSize), ("size_mb", .rat sizeMb),
     ("file_count", .i stats.2.1), ("dir_count", .i stats.2.2)])

/-- One large-file record (`{"path": ..., "size_bytes": ..., "size_mb": ...}`). -/
structure LargeFile where
  path : String
  size_bytes : Nat
  size_mb : ℚ

/-- The descending-by-`size_mb` comparison used by `files.sort(key=...,
reverse=True)`. -/
def largeFileGe (a b : LargeFile) : Bool := decide (b.size_mb ≤ a.size_mb)

/-- One `rglob` item of the large-file loop: a stat-accessible file at or
above the byte threshold becomes a record with its root-relative path and
rounded MB size; directories and stat-denied items (the `except` branch) are
skipped. -/
def largeFileEntry (minSizeBytes : ℚ) (it : List String × FSNode) :
    Option LargeFile :=
  match it.2 with
  | .file size _ false =>
      if minSizeBytes ≤ (size : ℚ) then
        some (LargeFile.mk (pyJoin "/" it.1) size (round2 ((size : ℚ) / 1024 / 1024)))
      else Option.none
  | _ => Option.none

/-- Model of `find_large_files` (mcp_file.py:363-409): recursive scan, filter
by `size >= min_size_mb * 1024 * 1024`, stable sort descending by the rounded
`size_mb`, truncate to `limit`. -/
def find_large_files (base : List String) (root : FSNode) (dir_path : RawPath)
    (min_size_mb : ℚ) (limit : Nat) : Except PyErr ToolResultE := do
  let (path, t) ← resolveLookup base root dir_path
  let (children, ld) ← requireDir path t
  let files := (rglobNode (path.drop base.length) (.dir children ld false)).filterMap
    (largeFileEntry (min_size_mb * 1024 * 1024))
  let truncated := (sortLe largeFileGe files).take limit
  let rel := relative_display base path
  let summary :=
    if truncated.isEmpty then
      "No files >= " ++ ratRepr min_size_mb ++ " MB found in '" ++ rel ++ "'."
    else
      "Top " ++ toString truncated.length ++ " file(s) >= " ++ ratRepr min_size_mb
        ++ " MB found in '" ++ rel ++ "'."
  .ok (function_make_response summary
    [("path", .s rel), ("min_size_mb", .rat min_size_mb), ("limit", .i limit),
     ("files", .list (truncated.map (fun f =>
       .dict [("path", .s f.path), ("size_bytes", .i f.size_bytes),
              ("size_mb", .rat f.size_mb)])))])

/-- `Path.suffix` of a file name, lower-cased handling in the caller:
the rightmost `'.'` must be neither the first nor the last character. -/
def pySuffix (name : String) : String :=
  let cs := name.data
  if '.' ∈ cs then
    let i := cs.length - 1 - cs.reverse.indexOf '.'
    if 0 < i ∧ i < cs.length - 1 then ⟨cs.drop i⟩ else ""
  else ""

/-- `counts[ext] = counts.get(ext, 0) + 1` on an insertion-ordered
association list (Python dict preserves insertion order). -/
def bumpCount (m : List (String × Nat)) (k : String) : List (String × Nat) :=
  match m with
  | [] => [(k, 1)]
  | (k', v) :: rest => if k' = k then (k', v + 1) :: rest else (k', v) :: bumpCount rest k

/-- The extension bucket of one scanned file path. -/
def extKey (relParts : List String) : String :=
  let name := (relParts.getLast?).getD ""
  let suf := pySuffix name
  if suf = "" then "(no extension)" else pyLower suf

/-- Model of `count_files_by_extension` (mcp_file.py:412-440). -/
def count_files_by_extension (base : List String) (root : FSNode)
    (dir_path : RawPath) : Except PyErr ToolResultE := do
  let (path, t) ← resolveLookup base root dir_path
  let (children, ld) ← requireDir path t
  let counts := (rglobNode (path.drop base.length) (.dir children ld false)).foldl
    (fun m it =>
      match it.2 with
      | .file _ _ false => bumpCount m (extKey it.1)
      | _ => m) []
  let rel := relative_display base path
  if counts.isEmpty then
    .ok (function_make_response ("No files detected under '" ++ rel ++ "'.")
      [("path", .s rel), ("counts", .list [])])
  else
    let sortedCounts := sortLe (fun a b => decide (b.2 ≤ a.2)) counts
    .ok (function_make_response
      ("Counted files grouped by extension under '" ++ rel ++ "'.")
      [("path", .s rel),
       ("counts", .list (sortedCounts.map (fun p => .list [.s p.1, .i p.2])))])

/-! ## Tool-orchestration model (`agent.py`, `run_one_turn`)

The completion service and the MCP transport are external collaborators:
the first model response is a parameter, the second completion call is a
function from the extended message list to an optional text content, and the
tool invocation (`mcp_tool.call` + text extraction) is a function that either
returns the textual content parts of a `CallToolResult` or fails the way a
raised exception would. -/

/-- The `arguments` payload of a function descriptor: a JSON string, an
already-decoded mapping, or anything else.  A missing attribute (whose
`getattr` default is the string `"{}"`) decodes to the empty mapping, as
`other` does. -/
inductive RawArgs where
  | str (s : String)
  | dict (d : List (String × PyVal))
  | other

/-- A tool-call request's nested function descriptor (object or mapping; both
shapes yield the same extracted fields). -/
structure ToolFunc where
  name : Option String
  arguments : RawArgs

/-- A tool-call request from the model. -/
structure ToolCallReq where
  id : Option String
  function : Option ToolFunc

/-- The external `json` module: `parse` models `json.loads` (`none` when it
raises), `dumps` models `json.dumps`. -/
structure JsonCodec where
  parse : String → Option (List (String × PyVal))
  dumps : List (String × PyVal) → String

/-- Model of `_tc_function` (agent.py:156-174): extract the function name and
the argument mapping, degrading unparsable or missing arguments to the empty
mapping. -/
def tc_function (codec : JsonCodec) (tc : ToolCallReq) :
    Option String × List (String × PyVal) :=
  match tc.function with
  | Option.none => (Option.none, [])
  | some f =>
      let args :=
        match f.arguments with
        | .str s => (codec.parse s).getD []
        | .dict d => d
        | .other => []
      (f.name, args)

/-- A normalized tool call (the OpenAI-format dict built at agent.py:205-212). -/
structure NormalizedCall where
  id : String
  name : String
  argumentsJson : String

/-- One conversation message; unused keys are empty/`none`. -/
structure Msg where
  role : String
  content : String
  tool_calls : List NormalizedCall
  tool_call_id : Option String
  name : Option String

def sysMsg (s : String) : Msg := ⟨"system", s, [], Option.none, Option.none⟩

def userMsg (u : String) : Msg := ⟨"user", u, [], Option.none, Option.none⟩

/-- The first model response: text content and tool-call requests, each
possibly absent (`None`). -/
structure ModelMsg where
  content : Option String
  tool_calls : Option (List ToolCallReq)

/-- The tool-execution loop of `run_one_turn` (agent.py:181-225): skip
requests without a usable function name (`if not func_name: continue`),
invoke the tool (a raised exception propagates: the loop does not guard the
call), join the result's content texts, and append one assistant/tool message
pair per executed call.  Returns the appended messages and the executed
`(name, arguments)` invocations, in order. -/
def exec_tool_calls (codec : JsonCodec)
    (callTool : String → List (String × PyVal) → Except String (List String))
    (assistantContent : String) :
    List ToolCallReq → Except String (List Msg × List (String × List (String × PyVal)))
  | [] => .ok ([], [])
  | tc :: rest =>
      let extracted := tc_function codec tc
      match extracted.1 with
      | Option.none => exec_tool_calls codec callTool assistantContent rest
      | some n =>
          if n = "" then exec_tool_calls codec callTool assistantContent rest
          else
            match callTool n extracted.2 with
            | .error e => .error e
            | .ok contentTexts =>
                let resultStr := pyJoin "\n" contentTexts
                let norm : NormalizedCall := ⟨(tc.id).getD "", n, codec.dumps extracted.2⟩
                match exec_tool_calls codec callTool assistantContent rest with
                | .error e => .error e
                | .ok (ms, invs) =>
                    .ok (⟨"assistant", assistantContent, [norm], Option.none, Option.none⟩ ::
                          ⟨"tool", resultStr, [], some norm.id, some n⟩ :: ms,
                        (n, extracted.2) :: invs)

/-- What one orchestration turn produced: the final answer, the message list,
the tool invocations performed, and whether the second completion call was
made. -/
structure TurnTrace where
  answer : String
  messages : List Msg
  invoked : List (String × List (String × PyVal))
  secondCallMade : Bool

/-- Model of `run_one_turn` (agent.py:119-233).  With no tool calls (absent or
empty: Python falsiness) the first response's content is returned directly
with no second completion call; otherwise the loop executes the requests and
the second completion's content (`""` when absent) is returned. -/
def run_one_turn (sysPrompt userInput : String) (first : ModelMsg)
    (codec : JsonCodec)
    (callTool : String → List (String × PyVal) → Except String (List String))
    (secondCall : List Msg → Option String) : Except String TurnTrace :=
  let baseMsgs := [sysMsg sysPrompt, userMsg userInput]
  let content := first.content
  match first.tool_calls with
  | Option.none => .ok ⟨content.getD "", baseMsgs, [], false⟩
  | some [] => .ok ⟨content.getD "", baseMsgs, [], false⟩
  | some (tc :: rest) =>
      match exec_tool_calls codec callTool (content.getD "") (tc :: rest) with
      | .error e => .error e
      | .ok (ms, invs) =>
          let messages := baseMsgs ++ ms
          .ok ⟨(secondCall messages).getD "", messages, invs, true⟩

/-! ## Monad reduction helpers -/

@[simp] theorem exceptBind_ok {ε α β : Type} (a : α) (f : α → Except ε β) :
    (Except.ok a >>= f : Except ε β) = f a := rfl

@[simp] theorem exceptBind_error {ε α β : Type} (e : ε) (f : α → Except ε β) :
    (Except.error e >>= f : Except ε β) = Except.error e := rfl

/-! ## Sorting lemmas -/

theorem mem_insertLe {α : Type} (le : α → α → Bool) (a x : α) (l : List α) :
    x ∈ insertLe le a l ↔ x = a ∨ x ∈ l := by
  induction l with
  | nil => simp [insertLe]
  | cons b l ih =>
      by_cases h : le a b = true
      · simp [insertLe, h]
      · simp only [insertLe, if_neg h, List.mem_cons, ih]
        tauto

theorem insertLe_perm {α : Type} (le : α → α → Bool) (a : α) (l : List α) :
    (insertLe le a l).Perm (a :: l) := by
  induction l with
  | nil => simp [insertLe]
  | cons b l ih =>
      by_cases h : le a b = true
      · simp [insertLe, h]
      · simp only [insertLe, if_neg h]
        exact (ih.cons b).trans (List.Perm.swap a b l)

theorem sortLe_perm {α : Type} (le : α → α → Bool) (l : List α) :
    (sortLe le l).Perm l := by
  induction l with
  | nil => simp [sortLe]
  | cons a l ih =>
      exact (insertLe_perm le a (sortLe le l)).trans (ih.cons a)

theorem mem_sortLe {α : Type} (le : α → α → Bool) (x : α) (l : List α) :
    x ∈ sortLe le l ↔ x ∈ l :=
  (sortLe_perm le l).mem_iff

theorem insertLe_pairwise {α : Type} {le : α → α → Bool}
    (htot : ∀ a b, le a b = true ∨ le b a = true)
    (htrans : ∀ a b c, le a b = true → le b c = true → le a c = true)
    (a : α) {l : List α} (hl : l.Pairwise (fun x y => le x y = true)) :
    (insertLe le a l).Pairwise (fun x y => le x y = true) := by
  induction l with
  | nil => simp [insertLe]
  | cons b l ih =>
      rcases List.pairwise_cons.mp hl with ⟨hb, hpl⟩
      by_cases h : le a b = true
      · rw [insertLe, if_pos h]
        refine List.pairwise_cons.mpr ⟨?_, hl⟩
        intro x hx
        rcases List.mem_cons.mp hx with rfl | hx
        · exact h
        · exact htrans a b x h (hb x hx)
      · rw [insertLe, if_neg h]
        refine List.pairwise_cons.mpr ⟨?_, ih hpl⟩
        intro x hx
        rcases (mem_insertLe le a x l).mp hx with hxa | hx
        · rw [hxa]
          rcases htot a b with h' | h'
          · exact absurd h' h
          · exact h'
        · exact hb x hx

theorem sortLe_pairwise {α : Type} {le : α → α → Bool}
    (htot : ∀ a b, le a b = true ∨ le b a = true)
    (htrans : ∀ a b c, le a b = true → le b c = true → le a c = true)
    (l : List α) : (sortLe le l).Pairwise (fun x y => le x y = true) := by
  induction l with
  | nil => simp [sortLe]
  | cons a l ih => exact insertLe_pairwise htot htrans a ih

/-! ### The string order used by `sorted` -/

theorem char_eq_of_toNat_eq {a b : Char} (h : a.toNat = b.toNat) : a = b :=
  Char.ext (UInt32.ext h)

theorem chLe_total (x y : List Char) : chLe x y = true ∨ chLe y x = true := by
  induction x generalizing y with
  | nil => left; rfl
  | cons a as ih =>
      match y with
      | [] => right; rfl
      | b :: bs =>
          by_cases hab : a = b
          · subst hab
            rcases ih bs with h | h
            · left; simpa [chLe] using h
            · right; simpa [chLe] using h
          · rcases Nat.lt_or_ge a.toNat b.toNat with h | h
            · left; simp [chLe, hab, h]
            · rcases Nat.eq_or_lt_of_le h with h' | h'
              · exact absurd (char_eq_of_toNat_eq h'.symm) hab
              · right; simp [chLe, Ne.symm hab, h']

theorem chLe_trans (x y z : List Char) (h1 : chLe x y = true) (h2 : chLe y z = true) :
    chLe x z = true := by
  induction x generalizing y z with
  | nil => rfl
  | cons a as ih =>
      match y, z with
      | [], _ => simp [chLe] at h1
      | _ :: _, [] => simp [chLe] at h2
      | b :: bs, c :: cs =>
          by_cases hab : a = b <;> by_cases hbc : b = c
          · subst hab; subst hbc
            simp only [chLe, if_pos rfl] at h1 h2 ⊢
            exact ih bs cs h1 h2
          · subst hab
            simp only [chLe, if_pos rfl] at h1
            simpa [chLe, hbc] using h2
          · subst hbc
            simp only [chLe, if_pos rfl] at h2
            simpa [chLe, hab] using h1
          · simp only [chLe, if_neg hab, decide_eq_true_eq] at h1
            simp only [chLe, if_neg hbc, decide_eq_true_eq] at h2
            have hac : a.toNat < c.toNat := Nat.lt_trans h1 h2
            have hne : a ≠ c := by
              intro h
              subst h
              exact Nat.lt_irrefl _ hac
            simp [chLe, hne, hac]

theorem pyStrLe_total (a b : String) : pyStrLe a b = true ∨ pyStrLe b a = true :=
  chLe_total a.data b.data

theorem pyStrLe_trans (a b c : String) (h1 : pyStrLe a b = true)
    (h2 : pyStrLe b c = true) : pyStrLe a c = true :=
  chLe_trans a.data b.data c.data h1 h2

/-! ## Result accessors -/

/-- The summary slot of a tool result's structured channel. -/
def summaryField (res : ToolResultE) : Option PyVal :=
  lookupVal res.structured "summary"

/-- A named slot of the structured data mapping. -/
def dataField (res : ToolResultE) (k : String) : Option PyVal :=
  match lookupVal res.structured "data" with
  | some (.dict d) => lookupVal d k
  | _ => Option.none

/-- The files slot of a (successful) `find_large_files` result, for stating
the C7 counterexample without binders. -/
def filesOf (x : Except PyErr ToolResultE) : Option PyVal :=
  match x with
  | .ok r => dataField r "files"
  | .error _ => Option.none

/-! ## Claims -/

/-- C1: for every input, `_resolve_safe` either raises a `ValueError` naming
the offending path and the administered root, or returns a path equal to the
base directory or a descendant of it; and the coercion fallback
`_coerce_into_base` never yields a path outside the base, for any input. -/
theorem C1_resolve_safe_containment :
    (∀ (base : List String) (raw : RawPath),
      (∃ p, resolve_safe base raw = .error (.valueError
          ("The path " ++ renderAbs p ++ " is outside the managed directory "
            ++ renderAbs base))) ∨
      (∃ p, resolve_safe base raw = .ok p ∧ base <+: p)) ∧
    (∀ (base path c : List String), coerce_into_base base path = some c → base <+: c) := by
  constructor
  · intro base raw
    match h : resolve_safe base raw with
    | .error e =>
        left
        obtain ⟨p, hp⟩ := resolve_safe_error_msg h
        exact ⟨p, by rw [hp]⟩
    | .ok p =>
        right
        exact ⟨p, rfl, resolve_safe_ok_prefix h⟩
  · intro base path c h
    exact coerce_into_base_prefix h

/-- Witness for C1: the coercion fallback applied to an outside path that
mentions the base folder's name (case-insensitively) lands back inside the
base. -/
theorem C1_witness :
    coerce_into_base ["srv", "admin"] ["tmp", "Admin", "x"] = some ["srv", "admin", "x"] ∧
    ["srv", "admin"] <+: ["srv", "admin", "x"] :=
  ⟨rfl, C1_resolve_safe_containment.2 ["srv", "admin"] ["tmp", "Admin", "x"]
    ["srv", "admin", "x"] rfl⟩

/-- C9: display round-trips with resolve — `display(resolve(root))` is `"."`,
and for a non-empty relative path of normal components, `display` of
`resolve(root/a/b)` is `"a/b"`. -/
theorem C9_display_roundtrip (base cs : List String)
    (hb : ∀ c ∈ base, NormalComp c) (hcs : ∀ c ∈ cs, NormalComp c)
    (hne : cs ≠ []) :
    resolve_safe base ⟨true, base⟩ = .ok base ∧
    relative_display base base = "." ∧
    resolve_safe base ⟨true, base ++ cs⟩ = .ok (base ++ cs) ∧
    relative_display base (base ++ cs) = pyJoin "/" cs :=
  ⟨resolve_safe_base hb, relative_display_base base,
   resolve_safe_under_base hb hcs, relative_display_under_base hne hcs⟩

/-- Witness for C9 at a concrete root and relative path `a/b`. -/
theorem C9_witness :
    resolve_safe ["home", "fda"] ⟨true, ["home", "fda"]⟩ = .ok ["home", "fda"] ∧
    relative_display ["home", "fda"] ["home", "fda"] = "." ∧
    resolve_safe ["home", "fda"] ⟨true, ["home", "fda", "a", "b"]⟩ =
      .ok ["home", "fda", "a", "b"] ∧
    relative_display ["home", "fda"] ["home", "fda", "a", "b"] = "a/b" := by
  obtain ⟨h1, h2, h3, h4⟩ :=
    C9_display_roundtrip ["home", "fda"] ["a", "b"]
      (by decide) (by decide) (by decide)
  exact ⟨h1, h2, h3, h4.trans rfl⟩

/-- C5: a first-call response with no tool-call requests (absent or an empty
list) makes `run_one_turn` return its text content unchanged, with no tool
invocation and no second completion call. -/
theorem C5_no_tool_calls_verbatim (sysPrompt userInput : String) (first : ModelMsg)
    (codec : JsonCodec)
    (callTool : String → List (String × PyVal) → Except String (List String))
    (secondCall : List Msg → Option String) (c : String)
    (hc : first.content = some c)
    (htc : first.tool_calls = Option.none ∨ first.tool_calls = some []) :
    run_one_turn sysPrompt userInput first codec callTool secondCall =
      .ok ⟨c, [sysMsg sysPrompt, userMsg userInput], [], false⟩ := by
  rcases htc with h | h <;> simp [run_one_turn, h, hc]

/-- Witness for C5 at a concrete no-tool-calls response. -/
theorem C5_witness :
    (ModelMsg.mk (some "hello") Option.none).content = some "hello" ∧
    run_one_turn "sys" "usr" ⟨some "hello", Option.none⟩
        ⟨fun _ => Option.none, fun _ => "{}"⟩
        (fun _ _ => .error "unreachable") (fun _ => Option.none) =
      .ok ⟨"hello", [sysMsg "sys", userMsg "usr"], [], false⟩ :=
  ⟨rfl,
   C5_no_tool_calls_verbatim "sys" "usr" ⟨some "hello", Option.none⟩
     ⟨fun _ => Option.none, fun _ => "{}"⟩
     (fun _ _ => .error "unreachable") (fun _ => Option.none) "hello"
     rfl (Or.inl rfl)⟩

/-- C3 counterexample: a tool invocation that raises (here: a file-not-found
failure surfacing from the tool call) aborts `run_one_turn` with that
exception — no error text is injected into a tool-role message and the second
completion call is never reached, contradicting the claim that no tool
failure aborts the turn. -/
theorem C3_counterexample :
    run_one_turn "sys" "usr"
        ⟨some "", some [⟨some "call-1", some ⟨some "get_file_content", RawArgs.other⟩⟩]⟩
        ⟨fun _ => Option.none, fun _ => "{}"⟩
        (fun _ _ => .error "FileNotFoundError: No file found at: /srv/admin/missing.txt")
        (fun _ => some "recovered") =
      .error "FileNotFoundError: No file found at: /srv/admin/missing.txt" := rfl

/-- C3 amended: when a tool invocation inside the loop fails, the failure
propagates out of `run_one_turn` unchanged, aborting the turn before the
second completion call (the REPL loop in `main` is what eventually catches
it); no textual error description is placed in a tool-role message. -/
theorem C3_amended_tool_failure_propagates
    (sysPrompt userInput : String) (first : ModelMsg) (codec : JsonCodec)
    (callTool : String → List (String × PyVal) → Except String (List String))
    (secondCall : List Msg → Option String) (tcs : List ToolCallReq) (e : String)
    (htc : first.tool_calls = some tcs)
    (hfail : exec_tool_calls codec callTool (first.content.getD "") tcs = .error e) :
    run_one_turn sysPrompt userInput first codec callTool secondCall = .error e := by
  match tcs, hfail with
  | [], hfail => simp [exec_tool_calls] at hfail
  | tc :: rest, hfail => simp [run_one_turn, htc, hfail]

/-- Witness for C3's amended statement at a concrete failing invocation. -/
theorem C3_witness :
    exec_tool_calls ⟨fun _ => Option.none, fun _ => "{}"⟩ (fun _ _ => .error "boom") ""
        [⟨some "call-1", some ⟨some "list_directory", RawArgs.other⟩⟩] = .error "boom" ∧
    run_one_turn "sys" "usr"
        ⟨some "", some [⟨some "call-1", some ⟨some "list_directory", RawArgs.other⟩⟩]⟩
        ⟨fun _ => Option.none, fun _ => "{}"⟩
        (fun _ _ => .error "boom") (fun _ => some "recovered") = .error "boom" :=
  ⟨rfl,
   C3_amended_tool_failure_propagates "sys" "usr"
     ⟨some "", some [⟨some "call-1", some ⟨some "list_directory", RawArgs.other⟩⟩]⟩
     ⟨fun _ => Option.none, fun _ => "{}"⟩
     (fun _ _ => .error "boom") (fun _ => some "recovered")
     [⟨some "call-1", some ⟨some "list_directory", RawArgs.other⟩⟩] "boom"
     rfl rfl⟩

/-- C10: a tool-call request whose function descriptor is absent or has no
usable name is silently dropped — the execution loop produces exactly the
messages and invocations of the remaining requests — and the turn still
proceeds to the second completion call. -/
theorem C10_nameless_request_dropped (codec : JsonCodec)
    (callTool : String → List (String × PyVal) → Except String (List String))
    (ac : String) (tc : ToolCallReq) (l1 l2 : List ToolCallReq)
    (hname : (tc_function codec tc).1 = Option.none ∨ (tc_function codec tc).1 = some "") :
    exec_tool_calls codec callTool ac (l1 ++ tc :: l2) =
      exec_tool_calls codec callTool ac (l1 ++ l2) ∧
    ∀ (sysPrompt userInput : String) (content : Option String)
      (secondCall : List Msg → Option String),
      run_one_turn sysPrompt userInput ⟨content, some (l1 ++ tc :: l2)⟩ codec callTool
          secondCall =
        match exec_tool_calls codec callTool (content.getD "") (l1 ++ l2) with
        | .error e => .error e
        | .ok (ms, invs) =>
            .ok ⟨(secondCall ([sysMsg sysPrompt, userMsg userInput] ++ ms)).getD "",
                 [sysMsg sysPrompt, userMsg userInput] ++ ms, invs, true⟩ := by
  have hskip : ∀ acont, exec_tool_calls codec callTool acont (tc :: l2) =
      exec_tool_calls codec callTool acont l2 := by
    intro acont
    rcases hname with h | h
    · simp [exec_tool_calls, h]
    · simp [exec_tool_calls, h]
  have hcons : ∀ acont a rest, exec_tool_calls codec callTool acont (a :: rest) =
      match (tc_function codec a).1 with
      | Option.none => exec_tool_calls codec callTool acont rest
      | some n =>
          if n = "" then exec_tool_calls codec callTool acont rest
          else
            match callTool n (tc_function codec a).2 with
            | .error e => .error e
            | .ok contentTexts =>
                match exec_tool_calls codec callTool acont rest with
                | .error e => .error e
                | .ok (ms, invs) =>
                    .ok (⟨"assistant", acont,
                            [⟨(a.id).getD "", n, codec.dumps (tc_function codec a).2⟩],
                            Option.none, Option.none⟩ ::
                          ⟨"tool", pyJoin "\n" contentTexts, [],
                            some ((a.id).getD ""), some n⟩ :: ms,
                        (n, (tc_function codec a).2) :: invs) := by
    intro acont a rest
    rfl
  have hexec : ∀ acont, exec_tool_calls codec callTool acont (l1 ++ tc :: l2) =
      exec_tool_calls codec callTool acont (l1 ++ l2) := by
    intro acont
    induction l1 with
    | nil => simpa using hskip acont
    | cons a l1 ih =>
        rw [List.cons_append, List.cons_append,
          hcons acont a (l1 ++ tc :: l2), hcons acont a (l1 ++ l2), ih]
  refine ⟨hexec ac, ?_⟩
  intro sysPrompt userInput content secondCall
  have h2 := hexec (content.getD "")
  match l1, h2 with
  | [], h2 =>
      simp only [List.nil_append] at h2 ⊢
      simp only [run_one_turn]
      rw [h2]
  | a :: l1, h2 =>
      simp only [List.cons_append] at h2 ⊢
      simp only [run_one_turn]
      rw [h2]
      rfl

/-- Witness for C10: a concrete turn with one nameless and one valid request
executes only the valid one and still makes the second completion call. -/
theorem C10_witness :
    (tc_function ⟨fun _ => Option.none, fun _ => "{}"⟩
        ⟨Option.none, Option.none⟩).1 = Option.none ∧
    exec_tool_calls ⟨fun _ => Option.none, fun _ => "{}"⟩
        (fun n _ => .ok ["R:" ++ n]) "c"
        [⟨Option.none, Option.none⟩,
         ⟨some "7", some ⟨some "list_directory", RawArgs.other⟩⟩] =
      exec_tool_calls ⟨fun _ => Option.none, fun _ => "{}"⟩
        (fun n _ => .ok ["R:" ++ n]) "c"
        [⟨some "7", some ⟨some "list_directory", RawArgs.other⟩⟩] ∧
    run_one_turn "sys" "usr"
        ⟨some "c",
         some [⟨Option.none, Option.none⟩,
               ⟨some "7", some ⟨some "list_directory", RawArgs.other⟩⟩]⟩
        ⟨fun _ => Option.none, fun _ => "{}"⟩
        (fun n _ => .ok ["R:" ++ n]) (fun _ => some "final") =
      .ok ⟨"final",
           [sysMsg "sys", userMsg "usr",
            ⟨"assistant", "c", [⟨"7", "list_directory", "{}"⟩], Option.none, Option.none⟩,
            ⟨"tool", "R:list_directory", [], some "7", some "list_directory"⟩],
           [("list_directory", [])], true⟩ := by
  have h := C10_nameless_request_dropped ⟨fun _ => Option.none, fun _ => "{}"⟩
    (fun n _ => .ok ["R:" ++ n]) "c" ⟨Option.none, Option.none⟩ []
    [⟨some "7", some ⟨some "list_directory", RawArgs.other⟩⟩] (Or.inl rfl)
  refine ⟨rfl, ?_, ?_⟩
  · exact h.1
  · exact (h.2 "sys" "usr" (some "c") (fun _ => some "final")).trans rfl

/-- C8: the structured channel of every formatted response carries the
summary, and every extra data field is reachable under its own name in the
`data` mapping — for all inputs, hence regardless of which text-rendering
branch was selected for the text channel. -/
theorem C8_structured_channel (summary : String) (data : List (String × PyVal)) :
    lookupVal (function_make_response summary data).structured "summary" =
      some (.s summary) ∧
    ∀ k v, lookupVal data k = some v →
      ∃ inner,
        lookupVal (function_make_response summary data).structured "data" =
          some (.dict inner) ∧ lookupVal inner k = some v :=
  ⟨function_make_response_summary summary data,
   fun _ _ h => function_make_response_data_field summary h⟩

/-- Witness for C8 on a result that renders through the entries branch. -/
theorem C8_witness :
    lookupVal (function_make_response "Directory '.' contains 1 item(s)."
        [("path", .s "."), ("entries", .list [.s "a"])]).structured "summary" =
      some (.s "Directory '.' contains 1 item(s).") ∧
    lookupVal [("path", PyVal.s "."), ("entries", PyVal.list [.s "a"])] "entries" =
      some (.list [.s "a"]) ∧
    ∃ inner,
      lookupVal (function_make_response "Directory '.' contains 1 item(s)."
          [("path", .s "."), ("entries", .list [.s "a"])]).structured "data" =
        some (.dict inner) ∧
      lookupVal inner "entries" = some (.list [.s "a"]) := by
  have h := C8_structured_channel "Directory '.' contains 1 item(s)."
    [("path", .s "."), ("entries", .list [.s "a"])]
  exact ⟨h.1, rfl, h.2 "entries" (.list [.s "a"]) rfl⟩

/-- C4 counterexample: `list_directory` on a *missing* target raises
`NotADirectoryError` — the wrong-kind error class — not a not-found error,
contradicting the claimed uniform taxonomy (`get_file_content` shows the dual
failure: a *directory* target raises `FileNotFoundError`, not a wrong-kind
error). -/
theorem C4_counterexample :
    list_directory ["srv", "admin"] (.dir [] false false) ⟨false, ["nope"]⟩ =
      .error (.notADirectory "Not a directory: /srv/admin/nope") ∧
    get_file_content ["srv", "admin"]
        (.dir [("sub", .dir [] false false)] false false) ⟨false, ["sub"]⟩ =
      .error (.fileNotFound "No file found at: /srv/admin/sub") :=
  ⟨rfl, rfl⟩

/-- C4 amended: the error classes actually produced are uniform per *operation
family*, not per condition — `get_file_content` raises `FileNotFoundError`
both for a missing and for a non-file target, `get_file_info` raises
`FileNotFoundError` for a missing target, and every directory-expecting
operation raises `NotADirectoryError` both for a missing and for a file
target.  In particular a read of a missing file yields the not-found error
and never a crash. -/
theorem C4_amended_error_classes (base : List String) (root : FSNode)
    (raw : RawPath) (p : List String)
    (hres : resolve_safe base raw = .ok p) :
    (lookupNode root (p.drop base.length) = Option.none →
      get_file_content base root raw =
        .error (.fileNotFound ("No file found at: " ++ renderAbs p)) ∧
      get_file_info base root raw =
        .error (.fileNotFound ("Path does not exist: " ++ renderAbs p)) ∧
      list_directory base root raw =
        .error (.notADirectory ("Not a directory: " ++ renderAbs p)) ∧
      (∀ pat, search_files base root pat raw =
        .error (.notADirectory ("Not a directory: " ++ renderAbs p))) ∧
      (∀ d, get_directory_tree base root raw d =
        .error (.notADirectory ("Not a directory: " ++ renderAbs p))) ∧
      get_disk_usage base root raw =
        .error (.notADirectory ("Not a directory: " ++ renderAbs p)) ∧
      (∀ mn lim, find_large_files base root raw mn lim =
        .error (.notADirectory ("Not a directory: " ++ renderAbs p))) ∧
      count_files_by_extension base root raw =
        .error (.notADirectory ("Not a directory: " ++ renderAbs p))) ∧
    (∀ sz u, lookupNode root (p.drop base.length) = some (.file sz u false) →
      list_directory base root raw =
        .error (.notADirectory ("Not a directory: " ++ renderAbs p)) ∧
      (∀ pat, search_files base root pat raw =
        .error (.notADirectory ("Not a directory: " ++ renderAbs p))) ∧
      (∀ d, get_directory_tree base root raw d =
        .error (.notADirectory ("Not a directory: " ++ renderAbs p))) ∧
      get_disk_usage base root raw =
        .error (.notADirectory ("Not a directory: " ++ renderAbs p)) ∧
      (∀ mn lim, find_large_files base root raw mn lim =
        .error (.notADirectory ("Not a directory: " ++ renderAbs p))) ∧
      count_files_by_extension base root raw =
        .error (.notADirectory ("Not a directory: " ++ renderAbs p))) ∧
    (∀ cs ld, lookupNode root (p.drop base.length) = some (.dir cs ld false) →
      get_file_content base root raw =
        .error (.fileNotFound ("No file found at: " ++ renderAbs p))) := by
  refine ⟨fun hl => ?_, fun sz u hl => ?_, fun cs ld hl => ?_⟩
  · refine ⟨?_, ?_, ?_, fun pat => ?_, fun d => ?_, ?_, fun mn lim => ?_, ?_⟩ <;>
      simp [get_file_content, get_file_info, list_directory, search_files,
        get_directory_tree, get_disk_usage, find_large_files,
        count_files_by_extension, resolveLookup, hres, hl, requireDir,
        Except.bind]
  · refine ⟨?_, fun pat => ?_, fun d => ?_, ?_, fun mn lim => ?_, ?_⟩ <;>
      simp [list_directory, search_files, get_directory_tree, get_disk_usage,
        find_large_files, count_files_by_extension, resolveLookup, hres, hl,
        requireDir, Except.bind]
  · simp [get_file_content, resolveLookup, hres, hl, Except.bind]

/-- Witness for C4's amended statement: a concrete missing target and a
concrete wrong-kind target. -/
theorem C4_witness :
    resolve_safe ["srv", "admin"] ⟨false, ["nope"]⟩ = .ok ["srv", "admin", "nope"] ∧
    lookupNode (.dir [("f.txt", .file 1 (some "x") false)] false false)
      ["nope"] = Option.none ∧
    get_file_content ["srv", "admin"]
        (.dir [("f.txt", .file 1 (some "x") false)] false false) ⟨false, ["nope"]⟩ =
      .error (.fileNotFound ("No file found at: " ++ renderAbs ["srv", "admin", "nope"])) ∧
    get_disk_usage ["srv", "admin"]
        (.dir [("f.txt", .file 1 (some "x") false)] false false) ⟨false, ["nope"]⟩ =
      .error (.notADirectory ("Not a directory: " ++ renderAbs ["srv", "admin", "nope"])) := by
  have h := C4_amended_error_classes ["srv", "admin"]
    (.dir [("f.txt", .file 1 (some "x") false)] false false)
    ⟨false, ["nope"]⟩ ["srv", "admin", "nope"] rfl
  have h1 := h.1 rfl
  exact ⟨rfl, rfl, h1.1, h1.2.2.2.2.2.1⟩

/-- C2 counterexample: `get_directory_tree` on a root whose subdirectory
denies listing raises `PermissionError` instead of rendering the accessible
subset — `_tree` never guards `iterdir()` — refuting the claim that all eight
operations tolerate permission errors on descendants. -/
theorem C2_counterexample :
    get_directory_tree ["srv", "admin"]
        (.dir [("ok.txt", .file 3 (some "hi") false),
               ("secret", .dir [("inner.txt", .file 7 (some "y") false)] true false)]
          false false)
        ⟨false, []⟩ 3 = .error .permissionError := rfl

/-- C2 amended: the aggregate scans (`get_disk_usage`, `find_large_files`,
`count_files_by_extension`) guard every per-item `stat` and never fail on an
accessible directory target, whatever denied descendants the tree contains
(pathlib's `rglob` suppresses denied listings), and `list_directory` of a
listable directory skips entries whose `is_dir()` raises; but
`get_directory_tree` (and `search_files`, whose loop leaves `is_dir()`
unguarded) propagate descendant permission errors. -/
theorem C2_amended_scans_tolerate (base : List String) (root : FSNode)
    (raw : RawPath) (p : List String) (children : List (String × FSNode)) (ld : Bool)
    (hres : resolve_safe base raw = .ok p)
    (hl : lookupNode root (p.drop base.length) = some (.dir children ld false)) :
    (∃ r, get_disk_usage base root raw = .ok r) ∧
    (∀ mn lim, ∃ r, find_large_files base root raw mn lim = .ok r) ∧
    (∃ r, count_files_by_extension base root raw = .ok r) ∧
    (ld = false → ∃ r, list_directory base root raw = .ok r) := by
  refine ⟨?_, fun mn lim => ?_, ?_, fun hld => ?_⟩
  · simp only [get_disk_usage, resolveLookup, hres, hl, requireDir, exceptBind_ok]
    exact ⟨_, rfl⟩
  · simp only [find_large_files, resolveLookup, hres, hl, requireDir, exceptBind_ok]
    exact ⟨_, rfl⟩
  · simp only [count_files_by_extension, resolveLookup, hres, hl, requireDir,
      exceptBind_ok]
    split <;> exact ⟨_, rfl⟩
  · subst hld
    simp only [list_directory, resolveLookup, hres, hl, requireDir, exceptBind_ok,
      if_neg Bool.false_ne_true]
    exact ⟨_, rfl⟩

/-- Witness for C2's amended statement on a tree containing both a
list-denied subdirectory and a stat-denied file. -/
theorem C2_witness :
    resolve_safe ["srv", "admin"] ⟨false, []⟩ = .ok ["srv", "admin"] ∧
    lookupNode
      (.dir [("a.txt", .file 5 (some "x") false),
             ("blocked", .dir [("inner.txt", .file 7 (some "y") false)] true false),
             ("noStat.txt", .file 9 (some "z") true)] false false) [] =
      some (.dir [("a.txt", .file 5 (some "x") false),
                  ("blocked", .dir [("inner.txt", .file 7 (some "y") false)] true false),
                  ("noStat.txt", .file 9 (some "z") true)] false false) ∧
    (∃ r, get_disk_usage ["srv", "admin"]
        (.dir [("a.txt", .file 5 (some "x") false),
               ("blocked", .dir [("inner.txt", .file 7 (some "y") false)] true false),
               ("noStat.txt", .file 9 (some "z") true)] false false) ⟨false, []⟩ = .ok r) ∧
    (∃ r, find_large_files ["srv", "admin"]
        (.dir [("a.txt", .file 5 (some "x") false),
               ("blocked", .dir [("inner.txt", .file 7 (some "y") false)] true false),
               ("noStat.txt", .file 9 (some "z") true)] false false) ⟨false, []⟩ 1 10 = .ok r) ∧
    (∃ r, count_files_by_extension ["srv", "admin"]
        (.dir [("a.txt", .file 5 (some "x") false),
               ("blocked", .dir [("inner.txt", .file 7 (some "y") false)] true false),
               ("noStat.txt", .file 9 (some "z") true)] false false) ⟨false, []⟩ = .ok r) ∧
    (∃ r, list_directory ["srv", "admin"]
        (.dir [("a.txt", .file 5 (some "x") false),
               ("blocked", .dir [("inner.txt", .file 7 (some "y") false)] true false),
               ("noStat.txt", .file 9 (some "z") true)] false false) ⟨false, []⟩ = .ok r) := by
  have h := C2_amended_scans_tolerate ["srv", "admin"]
    (.dir [("a.txt", .file 5 (some "x") false),
           ("blocked", .dir [("inner.txt", .file 7 (some "y") false)] true false),
           ("noStat.txt", .file 9 (some "z") true)] false false)
    ⟨false, []⟩ ["srv", "admin"] _ false rfl rfl
  exact ⟨rfl, rfl, h.1, h.2.1 1 10, h.2.2.1, h.2.2.2 rfl⟩

/-- C6: `list_directory` on an accessible directory returns its non-recursive
entries — each accessible entry's name suffixed with `"/"` exactly when it is
a directory — in sorted order (Python's code-point string order), with the
count summary; the entries list is exactly the stable sort of the suffixed
accessible children. -/
theorem C6_list_directory (base : List String) (root : FSNode) (raw : RawPath)
    (p : List String) (children : List (String × FSNode))
    (hres : resolve_safe base raw = .ok p)
    (hl : lookupNode root (p.drop base.length) = some (.dir children false false)) :
    ∃ entries,
      entries = sortLe pyStrLe (children.filterMap (fun nc =>
        if statDeniedOf nc.2 then Option.none
        else some (nc.1 ++ (if isDirRaw nc.2 then "/" else "")))) ∧
      list_directory base root raw = .ok (function_make_response
          (if entries.isEmpty then
            "Directory '" ++ relative_display base p ++ "' is empty."
           else
            "Directory '" ++ relative_display base p ++ "' contains "
              ++ toString entries.length ++ " item(s).")
          [("path", .s (relative_display base p)),
           ("count", .i entries.length),
           ("entries", .list (entries.map .s))]) ∧
      entries.Pairwise (fun a b => pyStrLe a b = true) ∧
      (∀ e, e ∈ entries ↔ ∃ nc, nc ∈ children ∧ statDeniedOf nc.2 = false ∧
        e = nc.1 ++ (if isDirRaw nc.2 then "/" else "")) := by
  refine ⟨_, rfl, ?_, ?_, ?_⟩
  · simp [list_directory, resolveLookup, hres, hl, requireDir]
  · exact sortLe_pairwise pyStrLe_total pyStrLe_trans _
  · intro e
    rw [mem_sortLe, List.mem_filterMap]
    constructor
    · rintro ⟨nc, hmem, hf⟩
      by_cases hd : statDeniedOf nc.2 = true
      · simp [hd] at hf
      · rw [if_neg (by simp [hd])] at hf
        exact ⟨nc, hmem, by simpa using hd, (Option.some.inj hf).symm⟩
    · rintro ⟨nc, hmem, hd, rfl⟩
      exact ⟨nc, hmem, by simp [hd]⟩

/-- Witness for C6 at end-to-end scenario 1: the root holds `notes.txt`
(10 bytes) and the empty subdirectory `sub`. -/
theorem C6_witness :
    resolve_safe ["srv", "admin"] ⟨false, []⟩ = .ok ["srv", "admin"] ∧
    lookupNode (.dir [("notes.txt", .file 10 (some "0123456789") false),
                      ("sub", .dir [] false false)] false false) [] =
      some (.dir [("notes.txt", .file 10 (some "0123456789") false),
                  ("sub", .dir [] false false)] false false) ∧
    ∃ res,
      list_directory ["srv", "admin"]
          (.dir [("notes.txt", .file 10 (some "0123456789") false),
                 ("sub", .dir [] false false)] false false) ⟨false, []⟩ = .ok res ∧
      summaryField res = some (.s "Directory '.' contains 2 item(s).") ∧
      dataField res "entries" = some (.list [.s "notes.txt", .s "sub/"]) := by
  obtain ⟨entries, he, heq, hp, hm⟩ :=
    C6_list_directory ["srv", "admin"]
      (.dir [("notes.txt", .file 10 (some "0123456789") false),
             ("sub", .dir [] false false)] false false)
      ⟨false, []⟩ ["srv", "admin"]
      [("notes.txt", .file 10 (some "0123456789") false), ("sub", .dir [] false false)]
      rfl rfl
  subst he
  exact ⟨rfl, rfl, _, heq, rfl, rfl⟩

/-- C7 counterexample: two files whose byte sizes differ but whose MB sizes
round to the same hundredth keep their scan order under the stable
`size_mb`-keyed sort, so the returned list (`a.bin` with 2097152 bytes before
`b.bin` with 2102152 bytes) is *not* sorted in descending order of byte size,
refuting the claim as stated. -/
theorem C7_counterexample :
    filesOf (find_large_files ["srv", "admin"]
        (.dir [("a.bin", .file 2097152 Option.none false),
               ("b.bin", .file 2102152 Option.none false)] false false)
        ⟨false, []⟩ 1 10) =
      some (.list
        [.dict [("path", .s "a.bin"), ("size_bytes", .i 2097152), ("size_mb", .rat 2)],
         .dict [("path", .s "b.bin"), ("size_bytes", .i 2102152), ("size_mb", .rat 2)]]) ∧
    (2097152 : Nat) < 2102152 := by
  constructor
  · have hmb1 : round2 (((2097152 : Nat) : ℚ) / 1024 / 1024) = 2 := by
      norm_num [round2, roundHalfEven]
    have hfl : ⌊((2102152 : Nat) : ℚ) / 1024 / 1024 * 100⌋ = 200 := by
      rw [Int.floor_eq_iff]
      constructor <;> norm_num
    have hmb2 : round2 (((2102152 : Nat) : ℚ) / 1024 / 1024) = 2 := by
      rw [round2, roundHalfEven]
      rw [hfl]
      norm_num
    have hth1 : ((1 : ℚ) * 1024 * 1024) ≤ ((2097152 : Nat) : ℚ) := by norm_num
    have hth2 : ((1 : ℚ) * 1024 * 1024) ≤ ((2102152 : Nat) : ℚ) := by norm_num
    have hentry1 : largeFileEntry ((1 : ℚ) * 1024 * 1024)
        (["a.bin"], .file 2097152 Option.none false) =
        some (LargeFile.mk "a.bin" 2097152 2) := by
      simp only [largeFileEntry]
      rw [if_pos hth1, hmb1]
      rfl
    have hentry2 : largeFileEntry ((1 : ℚ) * 1024 * 1024)
        (["b.bin"], .file 2102152 Option.none false) =
        some (LargeFile.mk "b.bin" 2102152 2) := by
      simp only [largeFileEntry]
      rw [if_pos hth2, hmb2]
      rfl
    have hge : largeFileGe (LargeFile.mk "a.bin" 2097152 2)
        (LargeFile.mk "b.bin" 2102152 2) = true := by
      simp [largeFileGe]
    have hres : resolve_safe ["srv", "admin"] ⟨false, []⟩ = .ok ["srv", "admin"] := rfl
    simp only [find_large_files, resolveLookup, hres, exceptBind_ok]
    simp only [show lookupNode
        (.dir [("a.bin", FSNode.file 2097152 Option.none false),
               ("b.bin", FSNode.file 2102152 Option.none false)] false false)
        (List.drop (["srv", "admin"] : List String).length ["srv", "admin"]) =
        some (.dir [("a.bin", FSNode.file 2097152 Option.none false),
                    ("b.bin", FSNode.file 2102152 Option.none false)] false false)
      from rfl, requireDir, exceptBind_ok]
    simp only [rglobNode, rglobSubdirs, List.map, List.filterMap,
      List.nil_append, List.cons_append]
    rw [show ((List.drop (["srv", "admin"] : List String).length ["srv", "admin"])
        ++ ["a.bin"]) = ["a.bin"] from rfl,
      show ((List.drop (["srv", "admin"] : List String).length ["srv", "admin"])
        ++ ["b.bin"]) = ["b.bin"] from rfl]
    rw [hentry1, hentry2]
    simp only [sortLe, insertLe, hge, if_pos]
    rfl
  · omega

/-- C7 amended: `find_large_files` returns exactly the recursively found
accessible files whose byte size is at least `min_size_mb * 1024 * 1024`,
stably sorted in descending order of their *rounded MB size* (`round(bytes /
1024 / 1024, 2)`, the sort key the code uses — files with distinct byte sizes
but equal rounded sizes keep scan order), truncated to at most `limit`
entries. -/
theorem C7_amended_find_large_files (base : List String) (root : FSNode)
    (raw : RawPath) (p : List String) (children : List (String × FSNode)) (ld : Bool)
    (min_size_mb : ℚ) (limit : Nat)
    (hres : resolve_safe base raw = .ok p)
    (hl : lookupNode root (p.drop base.length) = some (.dir children ld false)) :
    ∃ files,
      files = (rglobNode (p.drop base.length) (.dir children ld false)).filterMap
        (largeFileEntry (min_size_mb * 1024 * 1024)) ∧
      find_large_files base root raw min_size_mb limit = .ok (function_make_response
        (if ((sortLe largeFileGe files).take limit).isEmpty then
          "No files >= " ++ ratRepr min_size_mb ++ " MB found in '"
            ++ relative_display base p ++ "'."
         else
          "Top " ++ toString ((sortLe largeFileGe files).take limit).length
            ++ " file(s) >= " ++ ratRepr min_size_mb ++ " MB found in '"
            ++ relative_display base p ++ "'.")
        [("path", .s (relative_display base p)),
         ("min_size_mb", .rat min_size_mb), ("limit", .i limit),
         ("files", .list (((sortLe largeFileGe files).take limit).map (fun f =>
           .dict [("path", .s f.path), ("size_bytes", .i f.size_bytes),
                  ("size_mb", .rat f.size_mb)])))]) ∧
      ((sortLe largeFileGe files).take limit).Pairwise
        (fun a b => b.size_mb ≤ a.size_mb) ∧
      (∀ f ∈ (sortLe largeFileGe files).take limit,
        min_size_mb * 1024 * 1024 ≤ (f.size_bytes : ℚ)) ∧
      ((sortLe largeFileGe files).take limit).length ≤ limit ∧
      (∀ f, f ∈ sortLe largeFileGe files ↔ f ∈ files) := by
  refine ⟨_, rfl, ?_, ?_, ?_, ?_, ?_⟩
  · simp [find_large_files, resolveLookup, hres, hl, requireDir]
  · have hp := @sortLe_pairwise LargeFile largeFileGe
      (fun a b => by
        rcases le_total b.size_mb a.size_mb with h | h
        · left; simpa [largeFileGe] using h
        · right; simpa [largeFileGe] using h)
      (fun a b c h1 h2 => by
        simp only [largeFileGe, decide_eq_true_eq] at h1 h2 ⊢
        exact le_trans h2 h1)
      ((rglobNode (p.drop base.length) (.dir children ld false)).filterMap
        (largeFileEntry (min_size_mb * 1024 * 1024)))
    have := hp.sublist (List.take_sublist limit _)
    exact this.imp (fun h => by simpa [largeFileGe] using h)
  · intro f hf
    have hin : f ∈ (rglobNode (p.drop base.length) (.dir children ld false)).filterMap
        (largeFileEntry (min_size_mb * 1024 * 1024)) :=
      (mem_sortLe _ f _).mp ((List.take_sublist limit _).subset hf)
    obtain ⟨it, _, hit⟩ := List.mem_filterMap.mp hin
    obtain ⟨relp, node⟩ := it
    cases node with
    | file size u sd =>
        cases sd with
        | false =>
            simp only [largeFileEntry] at hit
            by_cases hle : min_size_mb * 1024 * 1024 ≤ (size : ℚ)
            · rw [if_pos hle] at hit
              cases hit
              exact hle
            · rw [if_neg hle] at hit
              cases hit
        | true => simp [largeFileEntry] at hit
    | dir cs l s => simp [largeFileEntry] at hit
  · exact List.length_take_le limit _
  · intro f
    exact mem_sortLe largeFileGe f _

/-- Witness for C7's amended statement: a concrete scan succeeds with the
hypotheses discharged on a tree containing an over- and an under-threshold
file. -/
theorem C7_witness :
    resolve_safe ["srv", "admin"] ⟨false, []⟩ = .ok ["srv", "admin"] ∧
    lookupNode (.dir [("big.bin", .file 2097152 Option.none false),
                      ("small.txt", .file 3 (some "ab") false)] false false) [] =
      some (.dir [("big.bin", .file 2097152 Option.none false),
                  ("small.txt", .file 3 (some "ab") false)] false false) ∧
    ∃ r, find_large_files ["srv", "admin"]
        (.dir [("big.bin", .file 2097152 Option.none false),
               ("small.txt", .file 3 (some "ab") false)] false false)
        ⟨false, []⟩ 1 10 = .ok r := by
  obtain ⟨files, _, heq, _, _, _, _⟩ :=
    C7_amended_find_large_files ["srv", "admin"]
      (.dir [("big.bin", .file 2097152 Option.none false),
             ("small.txt", .file 3 (some "ab") false)] false false)
      ⟨false, []⟩ ["srv", "admin"]
      [("big.bin", .file 2097152 Option.none false),
       ("small.txt", .file 3 (some "ab") false)] false 1 10 rfl rfl
  exact ⟨rfl, rfl, _, heq⟩

end BasicAgent
